import Mathlib

/-!
Shallow embedding of the sevsu_sheets_parser repository: the semester-boundary
segmentation logic of html_parser.py and the SQL statement builder of db.py.
HTML fragments are modelled as the data the code actually reads from them
(paragraph texts, heading text, anchor href values), network responses as a
status code paired with the parsed institute blocks, and exceptions as Option.
-/

namespace Sched

/-- The non-breaking space character U+00A0, written as a backslash-xa0 escape in
the Python source. -/
def nbsp : Char := Char.ofNat 160

/-- Lower-casing of one character as Python str.lower acts on the alphabets that
occur on the schedule page: ASCII letters and the Russian alphabet. -/
def lowerChar (c : Char) : Char :=
  if 'A' ≤ c ∧ c ≤ 'Z' then Char.ofNat (c.toNat + 32)
  else if 'А' ≤ c ∧ c ≤ 'Я' then Char.ofNat (c.toNat + 32)
  else if c = 'Ё' then 'ё'
  else c

/-- The normalization paragraph.text.replace of the non-breaking space by a space
followed by lower-casing, from get_semester_index. -/
def normalizeText (s : String) : String :=
  String.mk ((s.data.map (fun c => if c = nbsp then ' ' else c)).map lowerChar)

/-- Decidable check that the character list n occurs as a contiguous infix of the
second list, the Python substring-in test. -/
def containsSeq (n : List Char) : List Char → Bool
  | [] => n.isEmpty
  | c :: t => n.isPrefixOf (c :: t) || containsSeq n t

/-- The marker word looked up by get_semester_index. -/
def markerWord : String := "семестр"

/-- The per-paragraph test of get_semester_index: the normalized text contains
the marker word. -/
def matchesSemester (s : String) : Bool :=
  containsSeq markerWord.data (normalizeText s).data

/-- One institute block of the schedule page (a su-spoiler div): the texts of its
p elements in document order, its heading text, and the href values of the anchors
inside its su-clearfix div. none for linkContainer models an absent container, on
which BeautifulSoup find returns None and the find_all call in get_files_url
raises AttributeError. -/
structure Fragment where
  paragraphs : List String
  name : String
  linkContainer : Option (List String)

/-- Modelled from the spec: utils.get_extension is imported by html_parser.py but
utils.py is not in the repository; section 6 specifies extensionOf(url) as the
lower-cased substring after the final dot, and none when no dot is present. -/
def get_extension (url : String) : Option String :=
  if url.data.contains '.' then
    some (String.mk (((url.data.reverse.takeWhile (fun c => c ≠ '.')).reverse).map lowerChar))
  else none

/-- get_files_url: collect the href values of the link container and keep those
whose extension is xls or xlsx; none models the AttributeError raised when the
su-clearfix container is absent. -/
def get_files_url (f : Fragment) : Option (List String) :=
  match f.linkContainer with
  | none => none
  | some hrefs =>
      some (hrefs.filter (fun l =>
        get_extension l == some "xls" || get_extension l == some "xlsx"))

/-- get_semester_index: normalize every paragraph text, then keep the indices of
those containing the marker word. -/
def get_semester_index (f : Fragment) : List Nat :=
  let texts := f.paragraphs.map normalizeText
  (List.range texts.length).filter (fun i => containsSeq markerWord.data (texts.getD i "").data)

/-- get_schedule_from_first_semester: with exactly two marker indexes, the link
list cut before position last minus first minus one; otherwise the empty list,
returned without touching the link container. -/
def get_schedule_from_first_semester (f : Fragment) : Option (List String) :=
  let indexes := get_semester_index f
  if indexes.length = 2 then
    (get_files_url f).map (fun links => links.take (indexes.getLastD 0 - indexes.headD 0 - 1))
  else some []

/-- get_schedule_from_second_semester: with exactly two marker indexes, the link
list from position last minus one on; with exactly one marker index m, the link
list from position m plus one on; otherwise the empty list without touching the
link container. -/
def get_schedule_from_second_semester (f : Fragment) : Option (List String) :=
  let indexes := get_semester_index f
  if indexes.length = 2 then
    (get_files_url f).map (fun links => links.drop (indexes.getLastD 0 - 1))
  else if indexes.length = 1 then
    (get_files_url f).map (fun links => links.drop (indexes.headD 0 + 1))
  else some []

/-- check_response: True exactly on status code 200. -/
def check_response (response : Nat) : Bool := response == 200

/-- get_base_block: fetch the page and return None unless check_response accepts
the status code. The network response is modelled as its status code paired with
the institute blocks the page body parses into. -/
def get_base_block (status : Nat) (blocks : List Fragment) : Option (List Fragment) :=
  if check_response status then some blocks else none

/-- get_institute_name reads the heading text of the block. -/
def get_institute_name (f : Fragment) : String := f.name

/-- The module constant BASE_URL prefixed to every relative link in main. -/
def BASE_URL : String := "https://www.sevsu.ru"

/-- One record saved by main for an institute: its name and the absolute links of
the selected semester. -/
structure InstituteRecord where
  name : String
  links : List String
deriving DecidableEq

/-- The body of the for loop of main for one institute block: the absolute links
of the current-semester schedule, none when link extraction raises. -/
def processFragment (semester : Nat) (f : Fragment) : Option (List String) :=
  if semester == 1 then
    (get_schedule_from_first_semester f).map (fun ls => ls.map (fun l => BASE_URL ++ l))
  else
    (get_schedule_from_second_semester f).map (fun ls => ls.map (fun l => BASE_URL ++ l))

/-- The for loop of main: blocks are processed in order; an uncaught exception in
one block stops the whole loop, recorded by the Boolean abort flag, and a record
is saved for a block exactly when its link list is non-empty. -/
def mainLoop (semester : Nat) : List Fragment → List InstituteRecord × Bool
  | [] => ([], false)
  | f :: rest =>
    match processFragment semester f with
    | none => ([], true)
    | some a =>
      let tail := mainLoop semester rest
      ((if a.isEmpty then [] else [⟨get_institute_name f, a⟩]) ++ tail.1, tail.2)

/-- main: fetch via get_base_block, return None with no records on a rejected
status code, otherwise run the per-institute loop. -/
def mainRun (semester status : Nat) (blocks : List Fragment) :
    Option (List InstituteRecord × Bool) :=
  match get_base_block status blocks with
  | none => none
  | some base => some (mainLoop semester base)

/-- A single-quote character, kept out of string literals. -/
def squote : String := String.singleton (Char.ofNat 39)

/-- Python request with its last two characters cut, as applied by
insert_datas_to_db to the comma-and-space terminated pieces it builds. -/
def pyDropLast2 (s : String) : String := String.mk (s.data.take (s.data.length - 2))

/-- SQL.insert_datas_to_db: kwargs is the ordered key and value sequence (Python
preserves keyword order); values carry their f-string renderings. -/
def insert_datas_to_db (name : String) (kwargs : List (String × String)) : String :=
  let request := "INSERT INTO " ++ name ++ " ("
  let request := kwargs.foldl (fun r kv => r ++ kv.1 ++ ", ") request
  let temp := kwargs.foldl (fun t kv => t ++ squote ++ kv.2 ++ squote ++ ", ") ""
  let request := pyDropLast2 request ++ ")\nVALUES (" ++ temp
  pyDropLast2 request ++ ");"

/-- Comma-and-space separated join, the shape of a SQL column or value list. -/
def commaSep : List String → String
  | [] => ""
  | [x] => x
  | x :: y :: t => x ++ ", " ++ commaSep (y :: t)

/-- Fragment with two marker paragraphs at positions 1 and 3 and three xls links,
the shape on which the spec formula and the code disagree. -/
def cexFragTwo : Fragment :=
  ⟨["p0", "1 семестр", "p2", "2 семестр"], "I", some ["/a.xls", "/b.xls", "/c.xls"]⟩

/-- Fragment with three marker paragraphs and two xls links. -/
def cexFragMany : Fragment :=
  ⟨["семестр", "семестр", "семестр"], "I", some ["/a.xls", "/b.xls"]⟩

/-- A well-formed institute block: markers at 0 and 1, so the second-semester
schedule is the whole two-link list. -/
def goodFrag (tag : String) : Fragment :=
  ⟨["1 семестр", "2 семестр"], tag, some ["/a.xls", "/b.xls"]⟩

/-- A block whose su-clearfix link container is absent while one marker exists,
so link extraction raises. -/
def badFrag : Fragment := ⟨["семестр"], "Bad", none⟩

/-- A prefix cut at k followed by a suffix cut at m with k at most m is a
subsequence of the original list. -/
lemma take_drop_sub {α : Type} (L : List α) (k m : Nat) (h : k ≤ m) :
    (L.take k ++ L.drop m).Sublist L := by
  have h1 : L.take k = (L.take m).take k := by
    rw [List.take_take, Nat.min_eq_left h]
  have h2 : (L.take k ++ L.drop m).Sublist (L.take m ++ L.drop m) := by
    refine List.Sublist.append ?_ (List.Sublist.refl _)
    rw [h1]
    exact List.take_sublist _ _
  simpa [List.take_append_drop] using h2

/-- getD over the normalized paragraph list agrees with normalizing the getD of
the raw list, since the empty default normalizes to itself. -/
lemma getD_map_norm (ps : List String) (i : Nat) :
    (ps.map normalizeText).getD i "" = normalizeText (ps.getD i "") := by
  induction ps generalizing i with
  | nil => simp [List.getD]; rfl
  | cons p t ih =>
    cases i with
    | zero => simp [List.getD]
    | succ j => exact ih j

/-- Claim C5: with no semester marker both segmentation functions return the
empty list, whatever the link container holds and even when it is absent. -/
theorem c5_zero_markers (f : Fragment) (h : get_semester_index f = []) :
    get_schedule_from_first_semester f = some [] ∧
    get_schedule_from_second_semester f = some [] := by
  constructor
  · simp [get_schedule_from_first_semester, h]
  · simp [get_schedule_from_second_semester, h]

/-- Witness for C5 on a concrete fragment without markers and without container. -/
theorem c5_zero_markers_witness :
    get_semester_index ⟨["hello"], "I", none⟩ = [] ∧
    get_schedule_from_first_semester ⟨["hello"], "I", none⟩ = some [] ∧
    get_schedule_from_second_semester ⟨["hello"], "I", none⟩ = some [] := by
  have h := c5_zero_markers ⟨["hello"], "I", none⟩ (by decide)
  exact ⟨by decide, h.1, h.2⟩

/-- Claim C4: with exactly one marker at index m the first-semester list is empty
and the second-semester list drops the first m plus one links. -/
theorem c4_one_marker (f : Fragment) (m : Nat) (L : List String)
    (h : get_semester_index f = [m]) (hL : get_files_url f = some L) :
    get_schedule_from_first_semester f = some [] ∧
    get_schedule_from_second_semester f = some (L.drop (m + 1)) := by
  constructor
  · simp [get_schedule_from_first_semester, h]
  · simp [get_schedule_from_second_semester, h, hL]

/-- Witness for C4: one marker at index 0, two links, second semester keeps the
second link only. -/
theorem c4_one_marker_witness :
    get_semester_index ⟨["2 семестр"], "I", some ["/a.xls", "/b.xls"]⟩ = [0] ∧
    get_schedule_from_first_semester ⟨["2 семестр"], "I", some ["/a.xls", "/b.xls"]⟩
      = some [] ∧
    get_schedule_from_second_semester ⟨["2 семестр"], "I", some ["/a.xls", "/b.xls"]⟩
      = some (["/a.xls", "/b.xls"].drop (0 + 1)) := by
  have h := c4_one_marker ⟨["2 семестр"], "I", some ["/a.xls", "/b.xls"]⟩ 0
    ["/a.xls", "/b.xls"] (by decide) (by decide)
  exact ⟨by decide, h.1, h.2⟩

/-- Counterexample to claim C1: markers at indices 1 and 3, three links; the gap
is 2, so the claimed second-semester list is the drop at gap minus one, yet the
code drops at last minus one and returns only the third link. -/
theorem c1_counterexample :
    get_semester_index cexFragTwo = [1, 3] ∧
    get_files_url cexFragTwo = some ["/a.xls", "/b.xls", "/c.xls"] ∧
    get_schedule_from_second_semester cexFragTwo = some ["/c.xls"] ∧
    some ["/c.xls"] ≠ some ((["/a.xls", "/b.xls", "/c.xls"]).drop (3 - 1 - 1)) := by
  refine ⟨by decide, by decide, by decide, by decide⟩

/-- Claim C1 as amended: with markers [a, b] the first-semester list takes
b minus a minus 1 links but the second-semester list drops b minus 1 links, and
concatenation recovers the full sequence when a equals 0. -/
theorem c1_two_markers (f : Fragment) (a b : Nat) (L : List String)
    (h : get_semester_index f = [a, b]) (hL : get_files_url f = some L) :
    get_schedule_from_first_semester f = some (L.take (b - a - 1)) ∧
    get_schedule_from_second_semester f = some (L.drop (b - 1)) ∧
    (a = 0 → L.take (b - a - 1) ++ L.drop (b - 1) = L) := by
  refine ⟨?_, ?_, ?_⟩
  · simp [get_schedule_from_first_semester, h, hL]
  · simp [get_schedule_from_second_semester, h, hL]
  · intro ha
    subst ha
    simp [List.take_append_drop]

/-- Witness for the amended C1: markers at 0 and 2, so the halves are the first
link and the rest, and concatenation recovers the full list. -/
theorem c1_two_markers_witness :
    get_semester_index ⟨["1 семестр", "p1", "2 семестр"], "I", some ["/a.xls", "/b.xls"]⟩
      = [0, 2] ∧
    get_schedule_from_first_semester
      ⟨["1 семестр", "p1", "2 семестр"], "I", some ["/a.xls", "/b.xls"]⟩
      = some (["/a.xls", "/b.xls"].take (2 - 0 - 1)) ∧
    get_schedule_from_second_semester
      ⟨["1 семестр", "p1", "2 семестр"], "I", some ["/a.xls", "/b.xls"]⟩
      = some (["/a.xls", "/b.xls"].drop (2 - 1)) ∧
    (["/a.xls", "/b.xls"].take (2 - 0 - 1)) ++ (["/a.xls", "/b.xls"].drop (2 - 1))
      = ["/a.xls", "/b.xls"] := by
  have h := c1_two_markers
    ⟨["1 семестр", "p1", "2 семестр"], "I", some ["/a.xls", "/b.xls"]⟩ 0 2
    ["/a.xls", "/b.xls"] (by decide) (by decide)
  exact ⟨by decide, h.1, h.2.1, h.2.2 rfl⟩

/-- Counterexample to claim C3: three markers at 0, 1, 2 and two links; the
claimed first-semester list would be the nonempty take at 1, yet both functions
return the empty list. -/
theorem c3_counterexample :
    get_semester_index cexFragMany = [0, 1, 2] ∧
    get_files_url cexFragMany = some ["/a.xls", "/b.xls"] ∧
    get_schedule_from_first_semester cexFragMany = some [] ∧
    get_schedule_from_second_semester cexFragMany = some [] ∧
    (some [] : Option (List String)) ≠ some ((["/a.xls", "/b.xls"]).take (2 - 0 - 1)) := by
  refine ⟨by decide, by decide, by decide, by decide, by decide⟩

/-- Claim C3 as amended: with strictly more than two markers both segmentation
functions return the empty list, exactly as in the zero-marker case. -/
theorem c3_many_markers (f : Fragment) (h : 2 < (get_semester_index f).length) :
    get_schedule_from_first_semester f = some [] ∧
    get_schedule_from_second_semester f = some [] := by
  have h2 : (get_semester_index f).length ≠ 2 := by omega
  have h1 : (get_semester_index f).length ≠ 1 := by omega
  constructor
  · simp [get_schedule_from_first_semester, h2]
  · simp [get_schedule_from_second_semester, h1, h2]

/-- Witness for the amended C3 on the three-marker fragment. -/
theorem c3_many_markers_witness :
    2 < (get_semester_index cexFragMany).length ∧
    get_schedule_from_first_semester cexFragMany = some [] ∧
    get_schedule_from_second_semester cexFragMany = some [] := by
  have h := c3_many_markers cexFragMany (by decide)
  exact ⟨by decide, h.1, h.2⟩

/-- Counterexample to claim C2: on the two-marker fragment with markers at 1 and
3 the middle link appears in the full sequence but in neither output, although
more than one marker exists. -/
theorem c2_counterexample :
    (get_semester_index cexFragTwo).length = 2 ∧
    get_files_url cexFragTwo = some ["/a.xls", "/b.xls", "/c.xls"] ∧
    get_schedule_from_first_semester cexFragTwo = some ["/a.xls"] ∧
    get_schedule_from_second_semester cexFragTwo = some ["/c.xls"] ∧
    "/b.xls" ∈ ["/a.xls", "/b.xls", "/c.xls"] ∧
    ("/b.xls" ∈ ["/a.xls"] → False) ∧
    ("/b.xls" ∈ ["/c.xls"] → False) := by
  refine ⟨by decide, by decide, by decide, by decide, by decide, by decide, by decide⟩

/-- Claim C2 as amended: the two outputs are cut from disjoint position ranges of
the full link sequence, so their concatenation in split order is always a
subsequence of it; however links can be dropped from both outputs also in the
two-marker case (the positions from gap minus 1 up to last minus 2), not only at
or before the marker in the one-marker case. -/
theorem c2_concat_sublist (f : Fragment) (L s1 s2 : List String)
    (hL : get_files_url f = some L)
    (h1 : get_schedule_from_first_semester f = some s1)
    (h2 : get_schedule_from_second_semester f = some s2) :
    (s1 ++ s2).Sublist L := by
  by_cases hl2 : (get_semester_index f).length = 2
  · obtain ⟨a, b, hab⟩ := List.length_eq_two.mp hl2
    have e1 : s1 = L.take (b - a - 1) := by
      simp [get_schedule_from_first_semester, hab, hL] at h1
      exact h1.symm
    have e2 : s2 = L.drop (b - 1) := by
      simp [get_schedule_from_second_semester, hab, hL] at h2
      exact h2.symm
    subst e1 e2
    exact take_drop_sub L _ _ (Nat.sub_le_sub_right (Nat.sub_le b a) 1)
  · by_cases hl1 : (get_semester_index f).length = 1
    · obtain ⟨m, hm⟩ := List.length_eq_one.mp hl1
      have e1 : s1 = [] := by
        simp [get_schedule_from_first_semester, hm, hL] at h1
        exact h1
      have e2 : s2 = L.drop (m + 1) := by
        simp [get_schedule_from_second_semester, hm, hL] at h2
        exact h2.symm
      subst e1 e2
      simpa using List.drop_sublist (m + 1) L
    · have e1 : s1 = [] := by
        simp [get_schedule_from_first_semester, hl2] at h1
        exact h1
      have e2 : s2 = [] := by
        simp [get_schedule_from_second_semester, hl1, hl2] at h2
        exact h2
      subst e1 e2
      simp

/-- Witness for the amended C2 on the two-marker fragment: the concatenation of
the outputs is a subsequence of the extracted link list. -/
theorem c2_concat_sublist_witness :
    (["/a.xls"] ++ ["/c.xls"]).Sublist ["/a.xls", "/b.xls", "/c.xls"] :=
  c2_concat_sublist cexFragTwo ["/a.xls", "/b.xls", "/c.xls"] ["/a.xls"] ["/c.xls"]
    (by decide) (by decide) (by decide)

/-- Claim C6: the marker locator returns exactly the indices of paragraphs whose
normalized text contains the marker word, and the returned indices are strictly
ascending. -/
theorem c6_marker_locator (f : Fragment) :
    List.Pairwise (· < ·) (get_semester_index f) ∧
    ∀ i : Nat, i ∈ get_semester_index f ↔
      ∃ h : i < f.paragraphs.length, matchesSemester (f.paragraphs.get ⟨i, h⟩) = true := by
  constructor
  · exact (List.pairwise_lt_range _).filter _
  · intro i
    simp only [get_semester_index, List.mem_filter, List.mem_range, List.length_map]
    constructor
    · rintro ⟨h1, hp⟩
      refine ⟨h1, ?_⟩
      rw [getD_map_norm, List.getD_eq_getElem _ _ h1] at hp
      simpa [matchesSemester, List.get_eq_getElem] using hp
    · rintro ⟨h1, hp⟩
      refine ⟨h1, ?_⟩
      rw [getD_map_norm, List.getD_eq_getElem _ _ h1]
      simpa [matchesSemester, List.get_eq_getElem] using hp

/-- Claim C7: a link survives get_files_url exactly when its extension, the
lower-cased substring after the final dot, is xls or xlsx; the survivors keep
their document order (they form a sublist of the container), upper-case variants
pass, and a dot-free URL is filtered out rather than raising. -/
theorem c7_extension_filter (f : Fragment) (hrefs r : List String)
    (hc : f.linkContainer = some hrefs) (hr : get_files_url f = some r) :
    (∀ l, l ∈ r ↔ l ∈ hrefs ∧
      (get_extension l = some "xls" ∨ get_extension l = some "xlsx")) ∧
    r.Sublist hrefs ∧
    get_extension "/x/f.XLS" = some "xls" ∧
    get_extension "noDotHere" = none := by
  have hr2 : r = hrefs.filter (fun l =>
      get_extension l == some "xls" || get_extension l == some "xlsx") := by
    simp [get_files_url, hc] at hr
    exact hr.symm
  subst hr2
  refine ⟨?_, List.filter_sublist _, by decide, by decide⟩
  intro l
  simp [List.mem_filter]

/-- Witness for C7 on a concrete container holding an upper-case xls link, a pdf
link, a dot-free string and an xlsx link. -/
theorem c7_extension_filter_witness :
    (∀ l, l ∈ ["/a.XLS", "/c.xlsx"] ↔ l ∈ ["/a.XLS", "/b.pdf", "noDotHere", "/c.xlsx"] ∧
      (get_extension l = some "xls" ∨ get_extension l = some "xlsx")) ∧
    List.Sublist ["/a.XLS", "/c.xlsx"] ["/a.XLS", "/b.pdf", "noDotHere", "/c.xlsx"] ∧
    get_extension "/x/f.XLS" = some "xls" ∧
    get_extension "noDotHere" = none :=
  c7_extension_filter
    ⟨[], "I", some ["/a.XLS", "/b.pdf", "noDotHere", "/c.xlsx"]⟩
    ["/a.XLS", "/b.pdf", "noDotHere", "/c.xlsx"] ["/a.XLS", "/c.xlsx"]
    rfl (by decide)

/-- Counterexample to claim C8: three fragments of which the first lacks its link
container; the loop aborts at once and produces zero records instead of the two
claimed ones. -/
theorem c8_counterexample :
    processFragment 2 badFrag = none ∧
    mainLoop 2 [badFrag, goodFrag "I1", goodFrag "I2"] = ([], true) := by
  refine ⟨by decide, by decide⟩

/-- Claim C8 as amended: the error of a failing fragment is not caught anywhere;
the loop aborts at the first fragment whose link extraction raises, and records
are produced only for the fragments preceding it. -/
theorem c8_abort (semester : Nat) (pre post : List Fragment) (b : Fragment)
    (hb : processFragment semester b = none)
    (hpre : ∀ f ∈ pre, processFragment semester f ≠ none) :
    mainLoop semester (pre ++ b :: post) = ((mainLoop semester pre).1, true) := by
  induction pre with
  | nil => simp [mainLoop, hb]
  | cons f t ih =>
    obtain ⟨a, ha⟩ := Option.ne_none_iff_exists'.mp (hpre f (by simp))
    have ih2 := ih (fun g hg => hpre g (List.mem_cons_of_mem f hg))
    simp [mainLoop, ha, ih2]

/-- Witness for the amended C8: with a good fragment, then the bad one, then
another good one, the loop keeps the first record and aborts. -/
theorem c8_abort_witness :
    mainLoop 2 [goodFrag "I1", badFrag, goodFrag "I2"]
      = ((mainLoop 2 [goodFrag "I1"]).1, true) ∧
    (mainLoop 2 [goodFrag "I1"]).1
      = [⟨"I1", ["https://www.sevsu.ru/a.xls", "https://www.sevsu.ru/b.xls"]⟩] := by
  have h := c8_abort 2 [goodFrag "I1"] [goodFrag "I2"] badFrag (by decide)
    (by decide)
  exact ⟨h, by decide⟩

/-- Claim C9: a fetch whose status code is not 200 aborts the whole run with no
records at all, and processing continues exactly when the status code is 200. -/
theorem c9_fetch_failed (semester status : Nat) (blocks : List Fragment) :
    (status ≠ 200 → mainRun semester status blocks = none) ∧
    (status = 200 → mainRun semester status blocks = some (mainLoop semester blocks)) := by
  constructor
  · intro h
    simp [mainRun, get_base_block, check_response, h]
  · intro h
    simp [mainRun, get_base_block, check_response, h]

/-- Witness for C9: status 404 yields none, status 200 yields the loop result. -/
theorem c9_fetch_failed_witness :
    mainRun 2 404 [goodFrag "I1"] = none ∧
    mainRun 2 200 [goodFrag "I1"] = some (mainLoop 2 [goodFrag "I1"]) :=
  ⟨(c9_fetch_failed 2 404 [goodFrag "I1"]).1 (by decide),
   (c9_fetch_failed 2 200 [goodFrag "I1"]).2 rfl⟩

/-- Building a String back from its character list is the identity. -/
lemma mk_data (s : String) : String.mk s.data = s := rfl

/-- Cutting the last two characters undoes appending the two-character separator. -/
lemma pyDropLast2_sep (s : String) : pyDropLast2 (s ++ ", ") = s := by
  have hd : (s ++ ", ").data = s.data ++ [',', ' '] := rfl
  simp only [pyDropLast2, hd, List.length_append]
  have hlen : s.data.length + (List.length [',', ' ']) - 2 = s.data.length := rfl
  rw [hlen, List.take_left]

/-- Folding the column-name pieces of insert_datas_to_db appends the
comma-separated key list plus one trailing separator to the initial string. -/
lemma foldl_keys (l : List (String × String)) (init : String) (h : l ≠ []) :
    l.foldl (fun r kv => r ++ kv.1 ++ ", ") init
      = init ++ commaSep (l.map Prod.fst) ++ ", " := by
  induction l generalizing init with
  | nil => cases h rfl
  | cons kv t ih =>
    cases t with
    | nil => simp [commaSep]
    | cons kv2 t2 =>
      rw [List.foldl_cons, ih _ (by simp)]
      simp [commaSep, String.append_assoc]

/-- Folding the quoted-value pieces of insert_datas_to_db appends the
comma-separated quoted value list plus one trailing separator. -/
lemma foldl_vals (l : List (String × String)) (init : String) (h : l ≠ []) :
    l.foldl (fun t kv => t ++ squote ++ kv.2 ++ squote ++ ", ") init
      = init ++ commaSep (l.map (fun kv => squote ++ kv.2 ++ squote)) ++ ", " := by
  induction l generalizing init with
  | nil => cases h rfl
  | cons kv t ih =>
    cases t with
    | nil => simp [commaSep, String.append_assoc]
    | cons kv2 t2 =>
      rw [List.foldl_cons, ih _ (by simp)]
      simp [commaSep, String.append_assoc]

/-- Claim C10: for a non-empty keyword mapping the INSERT statement lists exactly
the keys as the column list and exactly the values, each wrapped in single
quotes, as the VALUES list, in the same order. -/
theorem c10_insert_statement (name : String) (kwargs : List (String × String))
    (h : kwargs ≠ []) :
    insert_datas_to_db name kwargs
      = "INSERT INTO " ++ name ++ " (" ++ commaSep (kwargs.map Prod.fst)
        ++ ")\nVALUES (" ++ commaSep (kwargs.map (fun kv => squote ++ kv.2 ++ squote))
        ++ ");" := by
  show pyDropLast2 (pyDropLast2
        (List.foldl (fun r kv => r ++ kv.1 ++ ", ") ("INSERT INTO " ++ name ++ " (") kwargs)
      ++ ")\nVALUES ("
      ++ List.foldl (fun t kv => t ++ squote ++ kv.2 ++ squote ++ ", ") "" kwargs) ++ ");"
    = _
  rw [foldl_keys kwargs _ h, foldl_vals kwargs _ h]
  simp only [← String.append_assoc]
  rw [pyDropLast2_sep, pyDropLast2_sep]
  simp [String.append_assoc, String.empty_append]

/-- Witness for C10 on the two-column example of db.main. -/
theorem c10_insert_statement_witness :
    insert_datas_to_db "pair" [("day", "1"), ("lesson_number", "2")]
      = "INSERT INTO pair (day, lesson_number)\nVALUES (" ++ squote ++ "1" ++ squote
        ++ ", " ++ squote ++ "2" ++ squote ++ ");" := by
  rw [c10_insert_statement "pair" [("day", "1"), ("lesson_number", "2")] (by decide)]
  decide

end Sched
